import Mathlib

/-!
# Service container of `pkg/di` (container.go)

A shallow embedding of `Container` with its four methods `Register`, `Get`,
`GetTyped` and `Inject`, together with the part of Go's `reflect` package the
last two go through, and the properties of the container proved on it.

Conventions.
* An `interface{}` value is `Option Dyn`: `none` is the nil interface, `some x`
  carries the dynamic type of the value and a data word standing for its
  identity.
* A call that mutates memory returns the memory it leaves behind: `Register`
  returns the container, `GetTyped` and `Inject` return the target.
* A call that may stop in a run-time panic returns an `Outcome`.
-/

set_option autoImplicit false

namespace di

/-! ## Go types and values as `reflect` sees them -/

/-- The kinds of `reflect.Kind`. -/
inductive Kind where
  | Invalid | Bool | Int | Int8 | Int16 | Int32 | Int64
  | Uint | Uint8 | Uint16 | Uint32 | Uint64 | Uintptr
  | Float32 | Float64 | Complex64 | Complex128
  | Array | Chan | Func | Interface | Map | Ptr | Slice | String | Struct
  | UnsafePointer
  deriving DecidableEq, Repr

/-- Direction of a channel type (`reflect.ChanDir`). -/
inductive ChanDir where
  | RecvDir | SendDir | BothDir
  deriving DecidableEq, Repr

/-- Descriptor of a type that is not an interface type. `name` is the identity
of the type, `named` tells whether it is a defined (named) type, `underlying`
is the identity of its underlying type, `methods` its method set. `chanDir` and
`elem` matter for channel types only. The kind of such a type is never
`Interface` (nor `Invalid`). -/
structure CType where
  name : String
  kind : Kind
  named : Bool := true
  underlying : String := name
  methods : List String := []
  chanDir : ChanDir := ChanDir.BothDir
  elem : String := ""
  concrete : kind ≠ Kind.Invalid ∧ kind ≠ Kind.Interface := by decide
  deriving DecidableEq

/-- Descriptor of an interface type: its identity and the methods it asks for. -/
structure IType where
  name : String
  methods : List String := []
  deriving DecidableEq, Repr

/-- A Go type: an interface type or any other type. -/
inductive GoType where
  | iface (t : IType)
  | concrete (t : CType)
  deriving DecidableEq

/-- Go's `Type.Kind()`. -/
def GoType.Kind : GoType → Kind
  | GoType.iface _ => Kind.Interface
  | GoType.concrete t => t.kind

/-- A non-nil `interface{}` value: dynamic type (never an interface type) and
the data word that identifies the value. -/
structure Dyn where
  typ : CType
  word : Nat
  deriving DecidableEq

/-- A service: any `interface{}` value, `none` being nil. -/
abbrev Service := Option Dyn

/-! ## Errors -/

/-- The `error` values the container builds with `fmt.Errorf`. -/
inductive GoError where
  | errorf (msg : String)
  | wrapf (msg : String) (err : GoError)
  deriving DecidableEq, Repr

/-- Go's `err.Error()`. -/
def GoError.Error : GoError → String
  | GoError.errorf msg => msg
  | GoError.wrapf msg _ => msg

/-- Go's `errors.Unwrap(err)`. -/
def GoError.Unwrap : GoError → Option GoError
  | GoError.errorf _ => none
  | GoError.wrapf _ err => some err

/-- The error of `fmt.Errorf("service '%s' not found", name)`. -/
def errNotFound (name : String) : GoError :=
  GoError.errorf ("service '" ++ name ++ "' not found")

/-- The error of `fmt.Errorf("failed to inject %s: %w", injectTag, err)`. -/
def errInject (injectTag : String) (err : GoError) : GoError :=
  GoError.wrapf ("failed to inject " ++ injectTag ++ ": " ++ err.Error) err

/-- The error of `fmt.Errorf("target must be a pointer to an interface")`. -/
def errTargetInterface : GoError :=
  GoError.errorf "target must be a pointer to an interface"

/-- The error of `fmt.Errorf("target must be a pointer")`. -/
def errTargetPointer : GoError :=
  GoError.errorf "target must be a pointer"

/-! ## The registry -/

/-- The container: `services map[string]interface{}`, the map allocated by
`NewContainer`. A name is bound when the map has an entry for it; the entry may
hold the nil interface. The mutex has no state between calls. -/
structure Container where
  services : String → Option Service

/-- Go's `NewContainer`: the empty map. -/
def NewContainer : Container :=
  { services := fun _ => none }

/-- Go's `Container.Register`: `c.services[name] = service`. -/
def Container.Register (c : Container) (name : String) (service : Service) : Container :=
  { services := fun k => if k = name then some service else c.services k }

/-- Go's `Container.Get`: the pair `(service, err)` it returns. -/
def Container.Get (c : Container) (name : String) : Service × Option GoError :=
  match c.services name with
  | none => (none, some (errNotFound name))
  | some service => (service, none)

/-! ## The part of `reflect` that `GetTyped` and `Inject` use -/

/-- The run-time panics `reflect` can raise on the paths the container takes. -/
inductive Panic where
  /-- reflect: call of reflect.Value.Elem on a Value of kind `k`. -/
  | elemOfNonPointer (k : Kind)
  /-- reflect: call of reflect.Value.Type on zero Value. -/
  | typeOfZeroValue
  /-- reflect: NumField of non-struct type `t`. -/
  | numFieldOfNonStruct (t : GoType)
  /-- reflect: call of reflect.Value.Set on zero Value. -/
  | setOfZeroValue
  /-- reflect.Set: value of type `src` is not assignable to type `dst`. -/
  | notAssignable (src : CType) (dst : GoType)
  deriving DecidableEq

/-- How a call ends: it returns, or it stops in a panic. -/
inductive Outcome (α : Type) where
  | returned (a : α)
  | panicked (p : Panic)
  deriving DecidableEq

/-- reflect's `specialChannelAssignability(T, V)`. -/
def specialChannelAssignability (T V : CType) : Bool :=
  V.chanDir == ChanDir.BothDir && (!T.named || !V.named) && T.elem == V.elem

/-- reflect's `directlyAssignable(T, V)` on two non-interface types; identity
of the underlying types stands for `haveIdenticalUnderlyingType`. -/
def directlyAssignable (T V : CType) : Bool :=
  if T = V then true
  else if (T.named && V.named) || T.kind != V.kind then false
  else if T.kind == Kind.Chan && specialChannelAssignability T V then true
  else T.underlying == V.underlying

/-- reflect's `implements(T, V)` for an interface type `T`: every method of
`T` is in the method set of `V`. -/
def implements (T : IType) (V : CType) : Bool :=
  T.methods.all (fun m => V.methods.contains m)

/-- Go's `Type.AssignableTo` from the dynamic type `V` of a value to `dst`:
`directlyAssignable(dst, V) || implements(dst, V)`. -/
def assignableTo (V : CType) (dst : GoType) : Bool :=
  match dst with
  | GoType.concrete T => directlyAssignable T V
  | GoType.iface T => implements T V

/-- reflect's `Value.assignTo`: what a variable of type `dst` holds once `x`
is assigned to it. A direct assignment keeps the data and gives it the type
`dst`; an assignment to an interface type stores `x` itself. -/
def assignTo (dst : GoType) (x : Dyn) : Outcome Service :=
  match dst with
  | GoType.concrete T =>
    if directlyAssignable T x.typ then Outcome.returned (some { typ := T, word := x.word })
    else Outcome.panicked (Panic.notAssignable x.typ dst)
  | GoType.iface T =>
    if implements T x.typ then Outcome.returned (some x)
    else Outcome.panicked (Panic.notAssignable x.typ dst)

/-- The call `v.Set(reflect.ValueOf(service))` on a settable `v` of type `dst`:
the new content of `v`. `reflect.ValueOf(nil)` is the zero Value, which `Set`
refuses by panicking. -/
def Value.Set (dst : GoType) (service : Service) : Outcome Service :=
  match service with
  | none => Outcome.panicked Panic.setOfZeroValue
  | some x => assignTo dst x

/-- A struct tag, as the list of its `key:"value"` pairs. -/
abbrev StructTag := List (String × String)

/-- Go's `StructTag.Get`: the value of the first pair with that key, else "". -/
def StructTag.Get (tag : StructTag) (key : String) : String :=
  match tag.lookup key with
  | some v => v
  | none => ""

/-- A field of a struct variable: its `reflect.StructField` (name, exported
bit, declared type, tag) and the value the field holds. -/
structure Field where
  name : String
  exported : Bool
  typ : GoType
  tag : StructTag
  value : Service
  deriving DecidableEq

/-- Whether `Elem().Field(i).CanSet()` holds for a field reached through a
pointer obtained from `reflect.ValueOf`: the variable is addressable, so the
field can be set exactly when it is exported. -/
def Field.CanSet (f : Field) : Bool := f.exported

/-- The variable a non-nil pointer refers to: an interface variable with its
content, or a variable of another type (`fields` lists its fields when the type
is a struct type). -/
inductive Var where
  | iface (t : IType) (content : Service)
  | concrete (t : CType) (fields : List Field)
  deriving DecidableEq

/-- Declared type of a variable. -/
def Var.typ : Var → GoType
  | Var.iface t _ => GoType.iface t
  | Var.concrete t _ => GoType.concrete t

/-- The `target interface{}` argument of `GetTyped` and `Inject`:
* `nil`: the nil interface;
* `val t`: a value of type `t` that is not a non-nil pointer, that is any
  non-pointer value, or the nil pointer when `t.kind = Ptr`;
* `ptr v`: a non-nil pointer to the variable `v`. -/
inductive Target where
  | nil
  | val (t : CType)
  | ptr (v : Var)
  deriving DecidableEq

/-- The call `reflect.ValueOf(target).Kind()`. -/
def Target.Kind : Target → Kind
  | Target.nil => Kind.Invalid
  | Target.val t => t.kind
  | Target.ptr _ => Kind.Ptr

/-- The call `reflect.ValueOf(target).Elem()`: `none` is the zero Value (the
pointer is nil), `some v` the addressable variable pointed to. `Elem` panics
on a Value that is neither a pointer nor an interface. -/
def Target.Elem : Target → Outcome (Option Var)
  | Target.nil => Outcome.panicked (Panic.elemOfNonPointer Kind.Invalid)
  | Target.val t =>
    if t.kind = Kind.Ptr then Outcome.returned none
    else Outcome.panicked (Panic.elemOfNonPointer t.kind)
  | Target.ptr v => Outcome.returned (some v)

/-- Go's `Value.Kind()` on the result of `Elem()`. -/
def elemKind : Option Var → Kind
  | none => Kind.Invalid
  | some v => v.typ.Kind

/-! ## Typed retrieval and injection -/

/-- Go's `Container.GetTyped`: the error it returns and the target it leaves.
After the lookup, `targetValue.Kind() != reflect.Ptr` is tested first and
`targetValue.Elem().Kind() != reflect.Interface` only for a pointer; the kind
of `Elem()` is `Interface` exactly for a non-nil pointer to an interface
variable (`elemKind_eq_Interface`), the case in which `Set` runs. -/
def Container.GetTyped (c : Container) (name : String) (target : Target) :
    Outcome (Option GoError × Target) :=
  match c.Get name with
  | (_, some err) => Outcome.returned (some err, target)
  | (service, none) =>
    if target.Kind ≠ Kind.Ptr then
      Outcome.returned (some errTargetInterface, target)
    else
      match target.Elem with
      | Outcome.panicked p => Outcome.panicked p
      | Outcome.returned (some (Var.iface t _)) =>
        match Value.Set (GoType.iface t) service with
        | Outcome.panicked p => Outcome.panicked p
        | Outcome.returned content =>
          Outcome.returned (none, Target.ptr (Var.iface t content))
      | Outcome.returned _ =>
        Outcome.returned (some errTargetInterface, target)

/-- Puts a field, already gone through, in front of what the rest of the loop
leaves. -/
def consField (f : Field) :
    Outcome (Option GoError × List Field) → Outcome (Option GoError × List Field)
  | Outcome.returned (err, fields) => Outcome.returned (err, f :: fields)
  | Outcome.panicked p => Outcome.panicked p

/-- The loop of `Inject`, `for i := 0; i < targetType.NumField(); i++`, on the
fields from `i` on, in declaration order: the error returned and the fields as
the loop leaves them. -/
def injectFields (c : Container) : List Field → Outcome (Option GoError × List Field)
  | [] => Outcome.returned (none, [])
  | field :: rest =>
    let injectTag := field.tag.Get "inject"
    if injectTag ≠ "" then
      match c.Get injectTag with
      | (_, some err) => Outcome.returned (some (errInject injectTag err), field :: rest)
      | (service, none) =>
        if field.CanSet then
          match Value.Set field.typ service with
          | Outcome.panicked p => Outcome.panicked p
          | Outcome.returned v => consField { field with value := v } (injectFields c rest)
        else consField field (injectFields c rest)
    else consField field (injectFields c rest)

/-- Go's `Container.Inject`: the error it returns and the target it leaves.
`targetValue.Elem().Type()` panics on the zero Value that `Elem()` gives for a
nil pointer, and `targetType.NumField()` panics unless the type is a struct
type. -/
def Container.Inject (c : Container) (target : Target) :
    Outcome (Option GoError × Target) :=
  if target.Kind ≠ Kind.Ptr then
    Outcome.returned (some errTargetPointer, target)
  else
    match target.Elem with
    | Outcome.panicked p => Outcome.panicked p
    | Outcome.returned none => Outcome.panicked Panic.typeOfZeroValue
    | Outcome.returned (some (Var.iface t _)) =>
      Outcome.panicked (Panic.numFieldOfNonStruct (GoType.iface t))
    | Outcome.returned (some (Var.concrete t fields)) =>
      if t.kind ≠ Kind.Struct then
        Outcome.panicked (Panic.numFieldOfNonStruct (GoType.concrete t))
      else
        match injectFields c fields with
        | Outcome.panicked p => Outcome.panicked p
        | Outcome.returned (err, fields') =>
          Outcome.returned (err, Target.ptr (Var.concrete t fields'))

/-! ## Vocabulary of the properties -/

/-- The injection key of a field: `field.Tag.Get("inject")`. -/
def Field.injectTag (f : Field) : String := f.tag.Get "inject"

/-- The field holds the service `x`: it holds `x` itself, or, when its declared
type `T` is not an interface type, the data of `x` under the type `T`. -/
def Field.holds (f : Field) (x : Dyn) : Prop :=
  f.value = some x ∨ ∃ T, f.typ = GoType.concrete T ∧ f.value = some { typ := T, word := x.word }

/-- A field `f` and the same field `f'` once the loop of `Inject` has gone over
it: the declaration is the same, a settable field with an injection key holds
the service `Get` returns for the key, and any other field is as it was. -/
def Injected (c : Container) (f f' : Field) : Prop :=
  f'.name = f.name ∧ f'.exported = f.exported ∧ f'.typ = f.typ ∧ f'.tag = f.tag ∧
  (f.injectTag ≠ "" → f.CanSet = true →
    ∃ x, c.Get f.injectTag = (some x, none) ∧ f'.holds x) ∧
  (f.injectTag = "" ∨ f.CanSet = false → f' = f)

/-- The key of a tagged field is bound, and when the field is settable it is
bound to a non-nil service whose dynamic type is assignable to the declared
type of the field. -/
def Injectable (c : Container) (f : Field) : Prop :=
  f.injectTag ≠ "" →
    ∃ s, c.services f.injectTag = some s ∧
      (f.CanSet = true → ∃ x, s = some x ∧ assignableTo x.typ f.typ = true)

/-- Puts fields already gone through in front of what the rest of the loop
leaves. -/
def prependFields (pre : List Field) :
    Outcome (Option GoError × List Field) → Outcome (Option GoError × List Field)
  | Outcome.returned (err, fields) => Outcome.returned (err, pre ++ fields)
  | Outcome.panicked p => Outcome.panicked p

/-! ## Example data -/

/-- The type `*sql.DB`. -/
def sqlDB : CType :=
  { name := "*sql.DB", kind := Kind.Ptr, named := false,
    methods := ["Close() error", "Ping() error"] }

/-- The type `*redis.Client`. -/
def redisClient : CType :=
  { name := "*redis.Client", kind := Kind.Ptr, named := false, methods := ["Close() error"] }

/-- The type `string`. -/
def goString : CType := { name := "string", kind := Kind.String }

/-- The type `int`. -/
def goInt : CType := { name := "int", kind := Kind.Int }

/-- A struct type `UserRepo`. -/
def userRepo : CType := { name := "UserRepo", kind := Kind.Struct }

/-- The type `interface{}`. -/
def emptyInterface : IType := { name := "interface {}" }

/-- The type `io.Closer`. -/
def ioCloser : IType := { name := "io.Closer", methods := ["Close() error"] }

/-- The type `io.Reader`. -/
def ioReader : IType := { name := "io.Reader", methods := ["Read([]uint8) (int, error)"] }

/-- A database handle. -/
def dbHandle : Dyn := { typ := sqlDB, word := 1 }

/-- A cache client. -/
def cacheHandle : Dyn := { typ := redisClient, word := 2 }

/-- A string value. -/
def dsn : Dyn := { typ := goString, word := 3 }

/-- A container with `"db"` and `"cache"` bound and `"logger"` unbound. -/
def bootContainer : Container :=
  (NewContainer.Register "db" (some dbHandle)).Register "cache" (some cacheHandle)

/-- Field `DB *sql.DB` tagged `inject:"db"`, nil. -/
def fieldDB : Field :=
  { name := "DB", exported := true, typ := GoType.concrete sqlDB,
    tag := [("json", "-"), ("inject", "db")], value := some { typ := sqlDB, word := 0 } }

/-- Field `Cache io.Closer` tagged `inject:"cache"`, nil. -/
def fieldCache : Field :=
  { name := "Cache", exported := true, typ := GoType.iface ioCloser,
    tag := [("inject", "cache")], value := none }

/-- Field `Logger interface{}` tagged `inject:"logger"`, nil. -/
def fieldLogger : Field :=
  { name := "Logger", exported := true, typ := GoType.iface emptyInterface,
    tag := [("inject", "logger")], value := none }

/-- Field `Table string`, without tag. -/
def fieldTable : Field :=
  { name := "Table", exported := true, typ := GoType.concrete goString,
    tag := [], value := some { typ := goString, word := 7 } }

/-- Unexported field `db interface{}` tagged `inject:"db"`, nil. -/
def fieldHidden : Field :=
  { name := "db", exported := false, typ := GoType.iface emptyInterface,
    tag := [("inject", "db")], value := none }

/-- Field `Port int` tagged `inject:"db"`. -/
def fieldPort : Field :=
  { name := "Port", exported := true, typ := GoType.concrete goInt,
    tag := [("inject", "db")], value := some { typ := goInt, word := 0 } }

/-- Unexported field `metrics interface{}` tagged `inject:"metrics"`, nil. -/
def fieldMetrics : Field :=
  { name := "metrics", exported := false, typ := GoType.iface emptyInterface,
    tag := [("inject", "metrics")], value := none }

/-! ## Calls and what they leave behind -/

/-- A piece of code run on a container: how it ends, and the container it
leaves. -/
def Exec (α : Type) : Type := Container → Outcome α × Container

/-- Code that returns `a` and touches nothing. -/
def Exec.pure {α : Type} (a : α) : Exec α :=
  fun c => (Outcome.returned a, c)

/-- Code that stops in the panic `p`. -/
def Exec.raise {α : Type} (p : Panic) : Exec α :=
  fun c => (Outcome.panicked p, c)

/-- Sequencing: `k` runs on what `x` returns and on the container `x` leaves;
a panic of `x` ends the run. -/
def Exec.bind {α β : Type} (x : Exec α) (k : α → Exec β) : Exec β :=
  fun c =>
    match x c with
    | (Outcome.returned a, c') => k a c'
    | (Outcome.panicked p, c') => (Outcome.panicked p, c')

/-- The map read `service, exists := c.services[name]`. -/
def mapLoad (name : String) : Exec (Option Service) :=
  fun c => (Outcome.returned (c.services name), c)

/-- The map write `c.services[name] = service`. -/
def mapStore (name : String) (service : Service) : Exec Unit :=
  fun c => (Outcome.returned (),
    { services := fun k => if k = name then some service else c.services k })

/-- Go's `Container.Register`, as code run on the container. -/
def Stateful.Register (name : String) (service : Service) : Exec Unit :=
  mapStore name service

/-- Go's `Container.Get`, as code run on the container. -/
def Stateful.Get (name : String) : Exec (Service × Option GoError) :=
  Exec.bind (mapLoad name) fun entry =>
    match entry with
    | none => Exec.pure (none, some (errNotFound name))
    | some service => Exec.pure (service, none)

/-- Go's `Container.GetTyped`, as code run on the container: the lookup is the
call `c.Get(name)`, the rest works on the target. -/
def Stateful.GetTyped (name : String) (target : Target) : Exec (Option GoError × Target) :=
  Exec.bind (Stateful.Get name) fun result =>
    match result with
    | (_, some err) => Exec.pure (some err, target)
    | (service, none) =>
      if target.Kind ≠ Kind.Ptr then
        Exec.pure (some errTargetInterface, target)
      else
        match target.Elem with
        | Outcome.panicked p => Exec.raise p
        | Outcome.returned (some (Var.iface t _)) =>
          match Value.Set (GoType.iface t) service with
          | Outcome.panicked p => Exec.raise p
          | Outcome.returned content =>
            Exec.pure (none, Target.ptr (Var.iface t content))
        | Outcome.returned _ =>
          Exec.pure (some errTargetInterface, target)

/-- The loop of `Inject`, as code run on the container: each tagged field makes
one call `c.Get(injectTag)`. -/
def Stateful.injectFields : List Field → Exec (Option GoError × List Field)
  | [] => Exec.pure (none, [])
  | field :: rest =>
    let injectTag := field.tag.Get "inject"
    if injectTag ≠ "" then
      Exec.bind (Stateful.Get injectTag) fun result =>
        match result with
        | (_, some err) => Exec.pure (some (errInject injectTag err), field :: rest)
        | (service, none) =>
          if field.CanSet then
            match Value.Set field.typ service with
            | Outcome.panicked p => Exec.raise p
            | Outcome.returned v =>
              Exec.bind (Stateful.injectFields rest) fun left =>
                Exec.pure (left.1, { field with value := v } :: left.2)
          else
            Exec.bind (Stateful.injectFields rest) fun left =>
              Exec.pure (left.1, field :: left.2)
    else
      Exec.bind (Stateful.injectFields rest) fun left =>
        Exec.pure (left.1, field :: left.2)

/-- Go's `Container.Inject`, as code run on the container. -/
def Stateful.Inject (target : Target) : Exec (Option GoError × Target) :=
  if target.Kind ≠ Kind.Ptr then
    Exec.pure (some errTargetPointer, target)
  else
    match target.Elem with
    | Outcome.panicked p => Exec.raise p
    | Outcome.returned none => Exec.raise Panic.typeOfZeroValue
    | Outcome.returned (some (Var.iface t _)) =>
      Exec.raise (Panic.numFieldOfNonStruct (GoType.iface t))
    | Outcome.returned (some (Var.concrete t fields)) =>
      if t.kind ≠ Kind.Struct then
        Exec.raise (Panic.numFieldOfNonStruct (GoType.concrete t))
      else
        Exec.bind (Stateful.injectFields fields) fun left =>
          Exec.pure (left.1, Target.ptr (Var.concrete t left.2))

/-- What a call reports to its caller: the error returned, or the panic. -/
def Outcome.report {α : Type} : Outcome (Option GoError × α) → Outcome (Option GoError)
  | Outcome.returned (err, _) => Outcome.returned err
  | Outcome.panicked p => Outcome.panicked p

/-- A field `f` and the same field `f'` after a call of `Inject` that returned:
the declaration is the same, and a field without injection key, or one that
cannot be set, is as it was. -/
def Kept (f f' : Field) : Prop :=
  f'.name = f.name ∧ f'.exported = f.exported ∧ f'.typ = f.typ ∧ f'.tag = f.tag ∧
  (f.injectTag = "" ∨ f.CanSet = false → f' = f)

/-- The result of `Inject` on a pointer to a struct variable of type `t`, from
what the loop leaves. -/
def injectResult (t : CType) :
    Outcome (Option GoError × List Field) → Outcome (Option GoError × Target)
  | Outcome.returned (err, fields) => Outcome.returned (err, Target.ptr (Var.concrete t fields))
  | Outcome.panicked p => Outcome.panicked p

/-! ## Round trip and lookup -/

/-- The kind of `Elem()` is `Interface` exactly when the pointer refers to an
interface variable. -/
theorem elemKind_eq_Interface (e : Option Var) :
    elemKind e = Kind.Interface ↔ ∃ t content, e = some (Var.iface t content) := by
  cases e with
  | none => simp [elemKind]
  | some v =>
    cases v with
    | iface t content => simp [elemKind, Var.typ, GoType.Kind]
    | concrete t fields =>
      have h := t.concrete.2
      simp [elemKind, Var.typ, GoType.Kind, h]

/-- C1: in every container state, whatever `n` was bound to before (nothing,
or another service `s1`), and for every name (the empty one too) and service
`s`, `Get(n)` after `Register(n, s)` returns `s` and a nil error. -/
theorem Register_Get_roundtrip (c : Container) (n : String) (s s1 : Service) :
    (c.Register n s).Get n = (s, none) ∧
    ((c.Register n s1).Register n s).Get n = (s, none) ∧
    ((c.Register "" s1).Register "" s).Get "" = (s, none) := by
  simp [Container.Get, Container.Register]

/-- C2: `Get(name)` returns the not-found error with a nil service when no
binding exists for `name`, and the bound service with a nil error when one
exists, so it fails if and only if the name is unbound; on the container of
`NewContainer` it fails with the not-found error for every name. -/
theorem Get_fails_iff_unbound (c : Container) (name : String) :
    ((c.services name = none ∧ c.Get name = (none, some (errNotFound name))) ∨
      (∃ s, c.services name = some s ∧ c.Get name = (s, none))) ∧
    ((c.Get name).2 = some (errNotFound name) ↔ c.services name = none) ∧
    ((c.Get name).2 ≠ none ↔ c.services name = none) ∧
    NewContainer.Get name = (none, some (errNotFound name)) := by
  refine ⟨?_, ?_, ?_, ?_⟩
  · cases h : c.services name with
    | none => simp [Container.Get, h]
    | some s => simp [Container.Get, h]
  · cases h : c.services name <;> simp [Container.Get, h]
  · cases h : c.services name <;> simp [Container.Get, h]
  · simp [Container.Get, NewContainer]

/-! ## The loop of `Inject` -/

theorem Get_bound (c : Container) (name : String) (s : Service)
    (h : c.services name = some s) : c.Get name = (s, none) := by
  simp [Container.Get, h]

theorem Get_unbound (c : Container) (name : String)
    (h : c.services name = none) : c.Get name = (none, some (errNotFound name)) := by
  simp [Container.Get, h]

/-- What `Set` stores when the dynamic type of the service is assignable. -/
theorem Set_assignable (dst : GoType) (x : Dyn) (h : assignableTo x.typ dst = true) :
    ∃ v, Value.Set dst (some x) = Outcome.returned (some v) ∧
      (v = x ∨ ∃ T, dst = GoType.concrete T ∧ v = { typ := T, word := x.word }) := by
  cases dst with
  | iface T =>
    refine ⟨x, ?_, Or.inl rfl⟩
    simp only [assignableTo] at h
    simp [Value.Set, assignTo, h]
  | concrete T =>
    refine ⟨{ typ := T, word := x.word }, ?_, Or.inr ⟨T, rfl, rfl⟩⟩
    simp only [assignableTo] at h
    simp [Value.Set, assignTo, h]

/-- When `Set` returns, the service was not nil, its dynamic type was
assignable, and the value stored is the service. -/
theorem Set_returned (dst : GoType) (s v : Service)
    (h : Value.Set dst s = Outcome.returned v) :
    ∃ x w, s = some x ∧ v = some w ∧ assignableTo x.typ dst = true ∧
      (w = x ∨ ∃ T, dst = GoType.concrete T ∧ w = { typ := T, word := x.word }) := by
  cases s with
  | none => simp [Value.Set] at h
  | some x =>
    cases dst with
    | iface T =>
      by_cases hi : implements T x.typ = true
      · simp [Value.Set, assignTo, hi] at h
        exact ⟨x, x, rfl, h.symm, by simp [assignableTo, hi], Or.inl rfl⟩
      · simp [Value.Set, assignTo, hi] at h
    | concrete T =>
      by_cases hd : directlyAssignable T x.typ = true
      · simp [Value.Set, assignTo, hd] at h
        exact ⟨x, _, rfl, h.symm, by simp [assignableTo, hd], Or.inr ⟨T, rfl, rfl⟩⟩
      · simp [Value.Set, assignTo, hd] at h

/-- When `Set` does not return, the service was nil or of a type that is not
assignable. -/
theorem Set_not_assignable (dst : GoType) (x : Dyn) (h : assignableTo x.typ dst = false) :
    Value.Set dst (some x) = Outcome.panicked (Panic.notAssignable x.typ dst) := by
  cases dst with
  | iface T =>
    simp only [assignableTo] at h
    simp [Value.Set, assignTo, h]
  | concrete T =>
    simp only [assignableTo] at h
    simp [Value.Set, assignTo, h]

theorem prependFields_nil (o : Outcome (Option GoError × List Field)) :
    prependFields [] o = o := by
  cases o with
  | returned a => cases a; simp [prependFields]
  | panicked p => rfl

theorem consField_prependFields (f : Field) (pre : List Field)
    (o : Outcome (Option GoError × List Field)) :
    consField f (prependFields pre o) = prependFields (f :: pre) o := by
  cases o with
  | returned a => cases a; simp [prependFields, consField]
  | panicked p => rfl

/-- The loop goes over a run of injectable fields without returning or
panicking, and goes on with the fields after it. -/
theorem injectFields_prefix (c : Container) (pre : List Field)
    (h : ∀ f ∈ pre, Injectable c f) :
    ∃ pre', List.Forall₂ (Injected c) pre pre' ∧
      ∀ rest, injectFields c (pre ++ rest) = prependFields pre' (injectFields c rest) := by
  induction pre with
  | nil => exact ⟨[], List.Forall₂.nil, fun rest => by simp [prependFields_nil]⟩
  | cons f pre ih =>
    obtain ⟨pre', hrel, hrun⟩ := ih (fun g hg => h g (List.mem_cons_of_mem f hg))
    have hf := h f (List.mem_cons_self f pre)
    by_cases htag : f.injectTag = ""
    · refine ⟨f :: pre', List.Forall₂.cons ⟨rfl, rfl, rfl, rfl, fun hne => absurd htag hne, fun _ => rfl⟩ hrel, ?_⟩
      intro rest
      have htag' : f.tag.Get "inject" = "" := htag
      simp [injectFields, htag', hrun, consField_prependFields]
    · obtain ⟨s, hs, hset⟩ := hf htag
      have htag' : ¬ f.tag.Get "inject" = "" := htag
      have hs' : c.services (f.tag.Get "inject") = some s := hs
      by_cases hcan : f.CanSet = true
      · obtain ⟨x, hx, hassign⟩ := hset hcan
        obtain ⟨v, hv, hvx⟩ := Set_assignable f.typ x hassign
        subst hx
        refine ⟨{ f with value := some v } :: pre',
          List.Forall₂.cons ⟨rfl, rfl, rfl, rfl, ?_, ?_⟩ hrel, ?_⟩
        · intro _ _
          refine ⟨x, Get_bound c _ _ hs, ?_⟩
          rcases hvx with hvx | ⟨T, hT, hvx⟩
          · exact Or.inl (by simp [hvx])
          · exact Or.inr ⟨T, hT, by simp [hvx]⟩
        · rintro (h0 | h0)
          · exact absurd h0 htag
          · simp [hcan] at h0
        · intro rest
          simp [injectFields, htag', Container.Get, hs', hcan, hv, hrun, consField_prependFields]
      · refine ⟨f :: pre', List.Forall₂.cons ⟨rfl, rfl, rfl, rfl, fun _ hc => absurd hc hcan, fun _ => rfl⟩ hrel, ?_⟩
        intro rest
        simp [injectFields, htag', Container.Get, hs', hcan, hrun, consField_prependFields]

theorem consField_returned (f : Field) (o : Outcome (Option GoError × List Field))
    (err : Option GoError) (fields : List Field)
    (h : consField f o = Outcome.returned (err, fields)) :
    ∃ fields0, o = Outcome.returned (err, fields0) ∧ fields = f :: fields0 := by
  cases o with
  | returned a =>
    obtain ⟨e, fs⟩ := a
    simp [consField] at h
    exact ⟨fs, by simp [h.1], h.2.symm⟩
  | panicked p => simp [consField] at h

/-- When the loop returns after a run of fields whose keys are all bound, every
field of the run has been gone over, and the rest of the loop returned the same
error. -/
theorem injectFields_prefix_returned (c : Container) (pre : List Field)
    (h : ∀ g ∈ pre, g.injectTag ≠ "" → c.services g.injectTag ≠ none)
    (rest : List Field) (err : Option GoError) (fields : List Field)
    (hret : injectFields c (pre ++ rest) = Outcome.returned (err, fields)) :
    ∃ pre' fields0, fields = pre' ++ fields0 ∧
      injectFields c rest = Outcome.returned (err, fields0) ∧
      List.Forall₂ (Injected c) pre pre' := by
  induction pre generalizing fields with
  | nil => exact ⟨[], fields, rfl, hret, List.Forall₂.nil⟩
  | cons f pre ih =>
    have hpre := fun g hg => h g (List.mem_cons_of_mem f hg)
    have hf := h f (List.mem_cons_self f pre)
    by_cases htag : f.injectTag = ""
    · have htag' : f.tag.Get "inject" = "" := htag
      simp only [List.cons_append, injectFields, htag', ne_eq, not_true_eq_false,
        if_false] at hret
      obtain ⟨fs0, h0, hfs⟩ := consField_returned f _ err fields hret
      obtain ⟨pre', fields0, hsplit, hrest, hrel⟩ := ih hpre fs0 h0
      exact ⟨f :: pre', fields0, by simp [hfs, hsplit], hrest,
        List.Forall₂.cons ⟨rfl, rfl, rfl, rfl, fun hne => absurd htag hne, fun _ => rfl⟩ hrel⟩
    · have htag' : ¬ f.tag.Get "inject" = "" := htag
      cases hs : c.services f.injectTag with
      | none => exact absurd hs (hf htag)
      | some s =>
        have hs' : c.services (f.tag.Get "inject") = some s := hs
        by_cases hcan : f.CanSet = true
        · cases hset : Value.Set f.typ s with
          | panicked p =>
            simp [injectFields, htag', Container.Get, hs', hcan, hset] at hret
          | returned v =>
            simp only [List.cons_append, injectFields, htag', ne_eq, not_false_eq_true,
              if_true, Container.Get, hs', hcan, hset] at hret
            obtain ⟨fs0, h0, hfs⟩ := consField_returned _ _ err fields hret
            obtain ⟨pre', fields0, hsplit, hrest, hrel⟩ := ih hpre fs0 h0
            obtain ⟨x, w, hx, hw, _, hwx⟩ := Set_returned f.typ s v hset
            subst hx hw
            refine ⟨{ f with value := some w } :: pre', fields0, by simp [hfs, hsplit], hrest,
              List.Forall₂.cons
                ⟨rfl, rfl, rfl, rfl, fun _ _ => ⟨x, Get_bound c _ _ hs, ?_⟩, ?_⟩ hrel⟩
            · rcases hwx with hwx | ⟨T, hT, hwx⟩
              · exact Or.inl (by simp [hwx])
              · exact Or.inr ⟨T, hT, by simp [hwx]⟩
            · rintro (h0 | h0)
              · exact absurd h0 htag
              · simp [hcan] at h0
        · simp only [List.cons_append, injectFields, htag', ne_eq, not_false_eq_true,
            if_true, Container.Get, hs', hcan] at hret
          obtain ⟨fs0, h0, hfs⟩ := consField_returned f _ err fields hret
          obtain ⟨pre', fields0, hsplit, hrest, hrel⟩ := ih hpre fs0 h0
          exact ⟨f :: pre', fields0, by simp [hfs, hsplit], hrest,
            List.Forall₂.cons ⟨rfl, rfl, rfl, rfl, fun _ hc => absurd hc hcan, fun _ => rfl⟩ hrel⟩

/-- The loop returns the wrapped not-found error at a tagged field whose key is
unbound, leaving the field and those after it as they were. -/
theorem injectFields_miss (c : Container) (f : Field) (post : List Field)
    (htag : f.injectTag ≠ "") (hmiss : c.services f.injectTag = none) :
    injectFields c (f :: post) =
      Outcome.returned (some (errInject f.injectTag (errNotFound f.injectTag)), f :: post) := by
  have htag' : ¬ f.tag.Get "inject" = "" := htag
  have hmiss' : c.services (f.tag.Get "inject") = none := hmiss
  simp [injectFields, htag', Container.Get, hmiss', Field.injectTag]

/-- `Inject` on a pointer to a struct variable is the loop over its fields. -/
theorem Inject_struct (c : Container) (t : CType) (fields : List Field)
    (hstruct : t.kind = Kind.Struct) :
    c.Inject (Target.ptr (Var.concrete t fields)) =
      match injectFields c fields with
      | Outcome.panicked p => Outcome.panicked p
      | Outcome.returned (err, fields') =>
        Outcome.returned (err, Target.ptr (Var.concrete t fields')) := by
  simp [Container.Inject, Target.Kind, Target.Elem, hstruct]

/-! ## Injection: happy path -/

/-- C3, as amended: when the key of every tagged field of a pointer-to-struct
target is bound, and bound to a non-nil service of assignable type when the
field is settable, `Inject` returns a nil error and every settable tagged field
holds the service bound to its key. -/
theorem Inject_populates_settable (c : Container) (t : CType) (fields : List Field)
    (hstruct : t.kind = Kind.Struct) (hbound : ∀ f ∈ fields, Injectable c f) :
    ∃ fields', c.Inject (Target.ptr (Var.concrete t fields)) =
        Outcome.returned (none, Target.ptr (Var.concrete t fields')) ∧
      List.Forall₂ (Injected c) fields fields' := by
  obtain ⟨fields', hrel, hrun⟩ := injectFields_prefix c fields hbound
  refine ⟨fields', ?_, hrel⟩
  have h := hrun []
  simp only [List.append_nil, injectFields, prependFields] at h
  simp [Container.Inject, Target.Kind, Target.Elem, hstruct, h]

/-- C3 fails as stated: the key `"db"` of the only tagged field is bound to a
service assignable to the field's type `interface{}`, `Inject` returns nil, and
the field, being unexported, still holds nil and not the service. -/
theorem Inject_populates_counterexample :
    bootContainer.Get fieldHidden.injectTag = (some dbHandle, none) ∧
    assignableTo dbHandle.typ fieldHidden.typ = true ∧
    bootContainer.Inject (Target.ptr (Var.concrete userRepo [fieldHidden])) =
      Outcome.returned (none, Target.ptr (Var.concrete userRepo [fieldHidden])) ∧
    fieldHidden.value = none ∧ ¬ fieldHidden.holds dbHandle := by
  refine ⟨by decide, by decide, by decide, rfl, ?_⟩
  simp [Field.holds, fieldHidden]

/-- Witness of `Inject_populates_settable`: a struct with a settable field
tagged `"db"`, one tagged `"cache"`, an untagged field and an unexported field
tagged `"db"`, in a container with `"db"` and `"cache"` bound. -/
theorem Inject_populates_settable_witness :
    userRepo.kind = Kind.Struct ∧
    (∀ f ∈ [fieldDB, fieldCache, fieldTable, fieldHidden], Injectable bootContainer f) ∧
    ∃ fields', bootContainer.Inject
        (Target.ptr (Var.concrete userRepo [fieldDB, fieldCache, fieldTable, fieldHidden])) =
        Outcome.returned (none, Target.ptr (Var.concrete userRepo fields')) ∧
      List.Forall₂ (Injected bootContainer)
        [fieldDB, fieldCache, fieldTable, fieldHidden] fields' :=
  have h : ∀ f ∈ [fieldDB, fieldCache, fieldTable, fieldHidden], Injectable bootContainer f := by
    intro f hf
    simp only [List.mem_cons, List.mem_singleton, List.not_mem_nil, or_false] at hf
    rcases hf with rfl | rfl | rfl | rfl
    · exact fun _ => ⟨some dbHandle, by decide, fun _ => ⟨dbHandle, rfl, by decide⟩⟩
    · exact fun _ => ⟨some cacheHandle, by decide, fun _ => ⟨cacheHandle, rfl, by decide⟩⟩
    · exact fun hne => absurd (by decide) hne
    · exact fun _ => ⟨some dbHandle, by decide, fun hc => absurd hc (by decide)⟩
  ⟨by decide, h, Inject_populates_settable bootContainer userRepo _ (by decide) h⟩

/-! ## Injection: missing binding -/

/-- C4, as amended: when every tagged field declared before `f` has its key
bound (to a non-nil service of assignable type if the field is settable) and
the key `k` of the tagged field `f` is unbound, `Inject` returns a non-nil
error that wraps the not-found error `Get` returns for `k` and whose message is
"failed to inject k: service 'k' not found"; `f` and the fields after it are
left as they were. -/
theorem Inject_first_missing (c : Container) (t : CType) (pre : List Field) (f : Field)
    (post : List Field) (hstruct : t.kind = Kind.Struct)
    (hpre : ∀ g ∈ pre, Injectable c g)
    (htag : f.injectTag ≠ "") (hmiss : c.services f.injectTag = none) :
    ∃ err pre', c.Inject (Target.ptr (Var.concrete t (pre ++ f :: post))) =
        Outcome.returned (some err, Target.ptr (Var.concrete t (pre' ++ f :: post))) ∧
      err.Unwrap = (c.Get f.injectTag).2 ∧
      (c.Get f.injectTag).2 = some (errNotFound f.injectTag) ∧
      err.Error =
        "failed to inject " ++ f.injectTag ++ ": service '" ++ f.injectTag ++ "' not found" ∧
      List.Forall₂ (Injected c) pre pre' := by
  obtain ⟨pre', hrel, hrun⟩ := injectFields_prefix c pre hpre
  refine ⟨errInject f.injectTag (errNotFound f.injectTag), pre', ?_, ?_, ?_, ?_, hrel⟩
  · rw [Inject_struct c t _ hstruct, hrun, injectFields_miss c f post htag hmiss]
    simp [prependFields]
  · simp [Get_unbound c _ hmiss, errInject, GoError.Unwrap]
  · simp [Get_unbound c _ hmiss]
  · have hlit : ": " ++ "service '" = ": service '" := by decide
    simp only [errInject, errNotFound, GoError.Error, String.append_assoc]
    rw [← String.append_assoc ": " "service '", hlit]

/-- Witness of `Inject_first_missing`: fields tagged `"db"` (bound) and
`"logger"` (unbound), then one tagged `"cache"`. -/
theorem Inject_first_missing_witness :
    userRepo.kind = Kind.Struct ∧ (∀ g ∈ [fieldDB], Injectable bootContainer g) ∧
    fieldLogger.injectTag ≠ "" ∧ bootContainer.services fieldLogger.injectTag = none ∧
    ∃ err pre', bootContainer.Inject
        (Target.ptr (Var.concrete userRepo ([fieldDB] ++ fieldLogger :: [fieldCache]))) =
        Outcome.returned
          (some err, Target.ptr (Var.concrete userRepo (pre' ++ fieldLogger :: [fieldCache]))) ∧
      err.Unwrap = (bootContainer.Get fieldLogger.injectTag).2 ∧
      (bootContainer.Get fieldLogger.injectTag).2 = some (errNotFound fieldLogger.injectTag) ∧
      err.Error = "failed to inject " ++ fieldLogger.injectTag ++ ": service '" ++
        fieldLogger.injectTag ++ "' not found" ∧
      List.Forall₂ (Injected bootContainer) [fieldDB] pre' :=
  have h : ∀ g ∈ [fieldDB], Injectable bootContainer g := by
    intro g hg
    simp only [List.mem_singleton] at hg
    subst hg
    exact fun _ => ⟨some dbHandle, by decide, fun _ => ⟨dbHandle, rfl, by decide⟩⟩
  ⟨by decide, h, by decide, by decide,
    Inject_first_missing bootContainer userRepo [fieldDB] fieldLogger [fieldCache]
      (by decide) h (by decide) (by decide)⟩

/-- C4 fails as stated: the struct has a tagged field whose key `"logger"` is
unbound, yet `Inject` returns no error at all: the field before it, of type
`int`, is bound to a `*sql.DB`, and assigning it panics. -/
theorem Inject_first_missing_counterexample :
    fieldLogger.injectTag ≠ "" ∧ bootContainer.services fieldLogger.injectTag = none ∧
    bootContainer.services fieldPort.injectTag = some (some dbHandle) ∧
    bootContainer.Inject (Target.ptr (Var.concrete userRepo [fieldPort, fieldLogger])) =
      Outcome.panicked (Panic.notAssignable sqlDB (GoType.concrete goInt)) := by
  decide

/-! ## Injection: no rollback -/

/-- C5, as amended: when `Inject` returns at the tagged field `f`, whose key is
unbound while the keys of the tagged fields declared before it are bound, the
error is the wrapped not-found error for the key of `f`, and every settable
tagged field declared before `f` holds the service bound to its key; `f` and
the fields after it are as before. -/
theorem Inject_no_rollback (c : Container) (t : CType) (pre : List Field) (f : Field)
    (post : List Field) (err : Option GoError) (target' : Target)
    (hstruct : t.kind = Kind.Struct)
    (hpre : ∀ g ∈ pre, g.injectTag ≠ "" → c.services g.injectTag ≠ none)
    (htag : f.injectTag ≠ "") (hmiss : c.services f.injectTag = none)
    (hret : c.Inject (Target.ptr (Var.concrete t (pre ++ f :: post))) =
      Outcome.returned (err, target')) :
    err = some (errInject f.injectTag (errNotFound f.injectTag)) ∧
    ∃ pre', target' = Target.ptr (Var.concrete t (pre' ++ f :: post)) ∧
      List.Forall₂ (Injected c) pre pre' := by
  rw [Inject_struct c t _ hstruct] at hret
  cases hloop : injectFields c (pre ++ f :: post) with
  | panicked p => simp [hloop] at hret
  | returned a =>
    obtain ⟨e, fields⟩ := a
    simp only [hloop, Outcome.returned.injEq, Prod.mk.injEq] at hret
    obtain ⟨pre', fields0, hsplit, hrest, hrel⟩ :=
      injectFields_prefix_returned c pre hpre (f :: post) e fields hloop
    rw [injectFields_miss c f post htag hmiss] at hrest
    simp only [Outcome.returned.injEq, Prod.mk.injEq] at hrest
    refine ⟨?_, pre', ?_, hrel⟩
    · rw [← hret.1, ← hrest.1]
    · rw [← hret.2, hsplit, ← hrest.2]

/-- Witness of `Inject_no_rollback`: fields tagged `"db"` (bound) and
`"logger"` (unbound). -/
theorem Inject_no_rollback_witness :
    userRepo.kind = Kind.Struct ∧
    (∀ g ∈ [fieldDB], g.injectTag ≠ "" → bootContainer.services g.injectTag ≠ none) ∧
    fieldLogger.injectTag ≠ "" ∧ bootContainer.services fieldLogger.injectTag = none ∧
    bootContainer.Inject (Target.ptr (Var.concrete userRepo ([fieldDB] ++ fieldLogger :: []))) =
      Outcome.returned (some (errInject "logger" (errNotFound "logger")),
        Target.ptr (Var.concrete userRepo [{ fieldDB with value := some dbHandle }, fieldLogger])) ∧
    (some (errInject "logger" (errNotFound "logger")) =
        some (errInject fieldLogger.injectTag (errNotFound fieldLogger.injectTag)) ∧
      ∃ pre', Target.ptr (Var.concrete userRepo [{ fieldDB with value := some dbHandle }, fieldLogger]) =
          Target.ptr (Var.concrete userRepo (pre' ++ fieldLogger :: [])) ∧
        List.Forall₂ (Injected bootContainer) [fieldDB] pre') :=
  ⟨by decide, by decide, by decide, by decide, by decide,
    Inject_no_rollback bootContainer userRepo [fieldDB] fieldLogger [] _ _
      (by decide) (by decide) (by decide) (by decide) (by decide)⟩

/-- C5 fails as stated: `Inject` fails with the not-found error at the field
tagged `"logger"`, and the tagged field declared before it, whose key `"db"` is
bound, still holds nil, not the service: it is unexported. -/
theorem Inject_no_rollback_counterexample :
    bootContainer.Inject (Target.ptr (Var.concrete userRepo [fieldHidden, fieldLogger])) =
      Outcome.returned (some (errInject "logger" (errNotFound "logger")),
        Target.ptr (Var.concrete userRepo [fieldHidden, fieldLogger])) ∧
    fieldHidden.injectTag = "db" ∧ bootContainer.Get "db" = (some dbHandle, none) ∧
    fieldHidden.value = none ∧ ¬ fieldHidden.holds dbHandle := by
  refine ⟨by decide, by decide, by decide, rfl, ?_⟩
  simp [Field.holds, fieldHidden]

/-! ## Injection: invalid targets -/

/-- A target that is not a pointer is rejected without any lookup: the error
is "target must be a pointer" and the target is left as it was. -/
theorem Inject_rejects_non_pointer (c : Container) (target : Target)
    (h : target.Kind ≠ Kind.Ptr) :
    c.Inject target = Outcome.returned (some errTargetPointer, target) := by
  simp [Container.Inject, h]

/-- C6, the code at the failing inputs: on a pointer to an `int`, on a pointer
to an interface variable and on a nil pointer, `Inject` returns no error: it
panics. -/
theorem Inject_invalid_pointer_panics (c : Container) :
    c.Inject (Target.ptr (Var.concrete goInt [])) =
      Outcome.panicked (Panic.numFieldOfNonStruct (GoType.concrete goInt)) ∧
    c.Inject (Target.ptr (Var.iface emptyInterface none)) =
      Outcome.panicked (Panic.numFieldOfNonStruct (GoType.iface emptyInterface)) ∧
    c.Inject (Target.val sqlDB) = Outcome.panicked Panic.typeOfZeroValue := by
  refine ⟨?_, ?_, ?_⟩
  · simp [Container.Inject, Target.Kind, Target.Elem, goInt]
  · simp [Container.Inject, Target.Kind, Target.Elem]
  · simp [Container.Inject, Target.Kind, Target.Elem, sqlDB]

/-! ## Typed retrieval -/

/-- C7, as amended: for a bound name, every target that is not a non-nil
pointer to an interface variable is rejected with the error "target must be a
pointer to an interface", and left as it was. -/
theorem GetTyped_rejects_invalid_target (c : Container) (name : String) (s : Service)
    (target : Target) (hbound : c.services name = some s)
    (hinvalid : ∀ t content, target ≠ Target.ptr (Var.iface t content)) :
    c.GetTyped name target = Outcome.returned (some errTargetInterface, target) := by
  cases target with
  | nil => simp [Container.GetTyped, Container.Get, hbound, Target.Kind]
  | val t =>
    by_cases hk : t.kind = Kind.Ptr
    · simp [Container.GetTyped, Container.Get, hbound, Target.Kind, Target.Elem, hk]
    · simp [Container.GetTyped, Container.Get, hbound, Target.Kind, hk]
  | ptr v =>
    cases v with
    | iface t content => exact absurd rfl (hinvalid t content)
    | concrete t fields =>
      simp [Container.GetTyped, Container.Get, hbound, Target.Kind, Target.Elem]

/-- Witness of `GetTyped_rejects_invalid_target`: an `int` passed as target for
the bound name `"db"`. -/
theorem GetTyped_rejects_invalid_target_witness :
    bootContainer.services "db" = some (some dbHandle) ∧
    (∀ t content, Target.val goInt ≠ Target.ptr (Var.iface t content)) ∧
    bootContainer.GetTyped "db" (Target.val goInt) =
      Outcome.returned (some errTargetInterface, Target.val goInt) :=
  ⟨by decide, fun _ _ h => Target.noConfusion h,
    GetTyped_rejects_invalid_target bootContainer "db" (some dbHandle) (Target.val goInt)
      (by decide) (fun _ _ h => Target.noConfusion h)⟩

/-- C7 fails as stated: for the unbound name `"logger"` and an `int` target,
`GetTyped` returns the not-found error of `Get`, not the invalid-target error. -/
theorem GetTyped_rejects_invalid_target_counterexample :
    bootContainer.services "logger" = none ∧
    bootContainer.GetTyped "logger" (Target.val goInt) =
      Outcome.returned (some (errNotFound "logger"), Target.val goInt) ∧
    errNotFound "logger" ≠ errTargetInterface := by
  decide

/-- C8, as amended: for a name bound to a non-nil service `x` and a non-nil
pointer to an interface variable whose interface type the dynamic type of `x`
implements, `GetTyped` returns a nil error and the variable holds `x`, the
value `Get(name)` returns. -/
theorem GetTyped_assigns (c : Container) (name : String) (x : Dyn) (t : IType)
    (content : Service) (hbound : c.services name = some (some x))
    (himpl : implements t x.typ = true) :
    c.GetTyped name (Target.ptr (Var.iface t content)) =
      Outcome.returned (none, Target.ptr (Var.iface t (some x))) ∧
    c.Get name = (some x, none) := by
  simp [Container.GetTyped, Container.Get, hbound, Target.Kind, Target.Elem, Value.Set,
    assignTo, himpl]

/-- Witness of `GetTyped_assigns`: the database handle retrieved into an
`io.Closer` variable. -/
theorem GetTyped_assigns_witness :
    bootContainer.services "db" = some (some dbHandle) ∧
    implements ioCloser dbHandle.typ = true ∧
    bootContainer.GetTyped "db" (Target.ptr (Var.iface ioCloser none)) =
      Outcome.returned (none, Target.ptr (Var.iface ioCloser (some dbHandle))) ∧
    bootContainer.Get "db" = (some dbHandle, none) :=
  ⟨by decide, by decide,
    GetTyped_assigns bootContainer "db" dbHandle ioCloser none (by decide) (by decide)⟩

/-- C8 fails as stated: with `"db"` bound to a `*sql.DB` and a pointer to an
`io.Reader` variable as target, and with `"off"` bound to nil and a pointer to
an `interface{}` variable as target, `GetTyped` returns no nil error: it
panics in `Set`. -/
theorem GetTyped_assigns_counterexample :
    bootContainer.GetTyped "db" (Target.ptr (Var.iface ioReader none)) =
      Outcome.panicked (Panic.notAssignable sqlDB (GoType.iface ioReader)) ∧
    (bootContainer.Register "off" none).Get "off" = (none, none) ∧
    (bootContainer.Register "off" none).GetTyped "off"
        (Target.ptr (Var.iface emptyInterface none)) =
      Outcome.panicked Panic.setOfZeroValue := by
  decide

/-- C9: for an unbound name and any target, `GetTyped` returns the error
`Get(name)` returns, which is the not-found error itself, and leaves the
target as it was. -/
theorem GetTyped_propagates_miss (c : Container) (name : String) (target : Target)
    (hmiss : c.services name = none) :
    c.GetTyped name target = Outcome.returned ((c.Get name).2, target) ∧
    (c.Get name).2 = some (errNotFound name) := by
  simp [Container.GetTyped, Container.Get, hmiss]

/-- Witness of `GetTyped_propagates_miss`: the unbound name `"logger"` and a
pointer to an `interface{}` variable. -/
theorem GetTyped_propagates_miss_witness :
    bootContainer.services "logger" = none ∧
    bootContainer.GetTyped "logger" (Target.ptr (Var.iface emptyInterface (some dsn))) =
      Outcome.returned ((bootContainer.Get "logger").2,
        Target.ptr (Var.iface emptyInterface (some dsn))) ∧
    (bootContainer.Get "logger").2 = some (errNotFound "logger") :=
  ⟨by decide,
    GetTyped_propagates_miss bootContainer "logger"
      (Target.ptr (Var.iface emptyInterface (some dsn))) (by decide)⟩

/-! ## Injection: type mismatch -/

/-- C10, as amended: when the loop reaches a settable tagged field whose key is
bound to a non-nil service of a type that is not assignable to the declared
type of the field, `Inject` returns nothing, neither an error nor nil: the
assignment panics with "value of type ... is not assignable to type ...". -/
theorem Inject_type_mismatch_panics (c : Container) (t : CType) (pre : List Field)
    (f : Field) (post : List Field) (x : Dyn) (hstruct : t.kind = Kind.Struct)
    (hpre : ∀ g ∈ pre, Injectable c g) (htag : f.injectTag ≠ "")
    (hcan : f.CanSet = true) (hbound : c.services f.injectTag = some (some x))
    (hmismatch : assignableTo x.typ f.typ = false) :
    c.Inject (Target.ptr (Var.concrete t (pre ++ f :: post))) =
      Outcome.panicked (Panic.notAssignable x.typ f.typ) := by
  obtain ⟨pre', _, hrun⟩ := injectFields_prefix c pre hpre
  have htag' : ¬ f.tag.Get "inject" = "" := htag
  have hbound' : c.services (f.tag.Get "inject") = some (some x) := hbound
  have hloop : injectFields c (f :: post) =
      Outcome.panicked (Panic.notAssignable x.typ f.typ) := by
    simp [injectFields, htag', Container.Get, hbound', hcan,
      Set_not_assignable f.typ x hmismatch]
  rw [Inject_struct c t _ hstruct, hrun, hloop]
  simp [prependFields]

/-- Witness of `Inject_type_mismatch_panics`: after the field tagged
`"cache"`, a field of type `int` tagged `"db"`, which is bound to a `*sql.DB`. -/
theorem Inject_type_mismatch_panics_witness :
    userRepo.kind = Kind.Struct ∧ (∀ g ∈ [fieldCache], Injectable bootContainer g) ∧
    fieldPort.injectTag ≠ "" ∧ fieldPort.CanSet = true ∧
    bootContainer.services fieldPort.injectTag = some (some dbHandle) ∧
    assignableTo dbHandle.typ fieldPort.typ = false ∧
    bootContainer.Inject
        (Target.ptr (Var.concrete userRepo ([fieldCache] ++ fieldPort :: [fieldTable]))) =
      Outcome.panicked (Panic.notAssignable dbHandle.typ fieldPort.typ) :=
  have h : ∀ g ∈ [fieldCache], Injectable bootContainer g := by
    intro g hg
    simp only [List.mem_singleton] at hg
    subst hg
    exact fun _ => ⟨some cacheHandle, by decide, fun _ => ⟨cacheHandle, rfl, by decide⟩⟩
  ⟨by decide, h, by decide, by decide, by decide, by decide,
    Inject_type_mismatch_panics bootContainer userRepo [fieldCache] fieldPort [fieldTable]
      dbHandle (by decide) h (by decide) (by decide) (by decide) (by decide)⟩

/-- C10 fails as stated: the only field, of type `int` and tagged `"db"`, is
bound to a `*sql.DB`, and `Inject` does not return an invalid-target error: it
panics. -/
theorem Inject_type_mismatch_counterexample :
    fieldPort.injectTag = "db" ∧ bootContainer.Get "db" = (some dbHandle, none) ∧
    assignableTo dbHandle.typ fieldPort.typ = false ∧
    bootContainer.Inject (Target.ptr (Var.concrete userRepo [fieldPort])) =
      Outcome.panicked (Panic.notAssignable sqlDB (GoType.concrete goInt)) ∧
    bootContainer.Inject (Target.ptr (Var.concrete userRepo [fieldPort])) ≠
      Outcome.returned (some errTargetPointer, Target.ptr (Var.concrete userRepo [fieldPort])) := by
  decide

/-! ## Frame of `Register` and of the reading methods -/

/-- C14: for names `m` and `n` with `m` different from `n`, `Get(m)` after
`Register(n, s)` returns the same service and the same error as `Get(m)`
before it, and the binding of `m` is the one it was. -/
theorem Register_frame (c : Container) (n m : String) (s : Service) (hne : m ≠ n) :
    (c.Register n s).Get m = c.Get m ∧ (c.Register n s).services m = c.services m := by
  simp [Container.Get, Container.Register, hne]

/-- Witness of `Register_frame`: registering `"logger"` leaves `"db"` alone. -/
theorem Register_frame_witness :
    "db" ≠ "logger" ∧
    (bootContainer.Register "logger" (some dsn)).Get "db" = bootContainer.Get "db" ∧
    (bootContainer.Register "logger" (some dsn)).services "db" = bootContainer.services "db" :=
  ⟨by decide, Register_frame bootContainer "logger" "db" (some dsn) (by decide)⟩

/-- `Register` run on the container leaves the container `Container.Register`
gives. -/
theorem stateful_Register (c : Container) (name : String) (service : Service) :
    Stateful.Register name service c = (Outcome.returned (), c.Register name service) := rfl

theorem forall₂_append_split {R : Field → Field → Prop} (pre rest l : List Field)
    (h : List.Forall₂ R (pre ++ rest) l) :
    ∃ pre' rest', l = pre' ++ rest' ∧ List.Forall₂ R pre pre' ∧ List.Forall₂ R rest rest' := by
  induction pre generalizing l with
  | nil => exact ⟨[], l, rfl, List.Forall₂.nil, h⟩
  | cons f pre ih =>
    rw [List.cons_append, List.forall₂_cons_left_iff] at h
    obtain ⟨f', l', hf, hl, rfl⟩ := h
    obtain ⟨pre', rest', rfl, hpre, hrest⟩ := ih l' hl
    exact ⟨f' :: pre', rest', rfl, List.Forall₂.cons hf hpre, hrest⟩

theorem Kept_refl (f : Field) : Kept f f :=
  ⟨rfl, rfl, rfl, rfl, fun _ => rfl⟩

/-- Whenever the loop returns, with or without error, the fields are the same
fields, and those without injection key or not settable are as they were. -/
theorem injectFields_returned_kept (c : Container) (fields : List Field)
    (err : Option GoError) (fields' : List Field)
    (hret : injectFields c fields = Outcome.returned (err, fields')) :
    List.Forall₂ Kept fields fields' := by
  induction fields generalizing fields' with
  | nil =>
    simp only [injectFields, Outcome.returned.injEq, Prod.mk.injEq] at hret
    rw [← hret.2]
    exact List.Forall₂.nil
  | cons f rest ih =>
    by_cases htag : f.tag.Get "inject" = ""
    · simp only [injectFields, htag, ne_eq, not_true_eq_false, if_false] at hret
      obtain ⟨fs0, h0, hfs⟩ := consField_returned f _ err fields' hret
      rw [hfs]
      exact List.Forall₂.cons (Kept_refl f) (ih fs0 h0)
    · cases hs : c.services (f.tag.Get "inject") with
      | none =>
        simp only [injectFields, htag, ne_eq, not_false_eq_true, if_true, Container.Get, hs,
          Outcome.returned.injEq, Prod.mk.injEq] at hret
        rw [← hret.2]
        exact List.forall₂_same.2 (fun g _ => Kept_refl g)
      | some s =>
        by_cases hcan : f.CanSet = true
        · cases hset : Value.Set f.typ s with
          | panicked p =>
            simp [injectFields, htag, Container.Get, hs, hcan, hset] at hret
          | returned v =>
            simp only [injectFields, htag, ne_eq, not_false_eq_true, if_true, Container.Get,
              hs, hcan, hset] at hret
            obtain ⟨fs0, h0, hfs⟩ := consField_returned _ _ err fields' hret
            rw [hfs]
            refine List.Forall₂.cons ⟨rfl, rfl, rfl, rfl, ?_⟩ (ih fs0 h0)
            rintro (h1 | h1)
            · exact absurd h1 htag
            · simp [hcan] at h1
        · simp only [injectFields, htag, ne_eq, not_false_eq_true, if_true, Container.Get,
            hs, hcan] at hret
          obtain ⟨fs0, h0, hfs⟩ := consField_returned f _ err fields' hret
          rw [hfs]
          exact List.Forall₂.cons (Kept_refl f) (ih fs0 h0)

/-- The loop looks up the keys of the tagged fields and nothing else: two
containers that agree on these keys give the same outcome. -/
theorem injectFields_congr (c c' : Container) (fields : List Field)
    (h : ∀ f ∈ fields, f.injectTag ≠ "" → c'.services f.injectTag = c.services f.injectTag) :
    injectFields c' fields = injectFields c fields := by
  induction fields with
  | nil => rfl
  | cons f rest ih =>
    have hrest := ih (fun g hg => h g (List.mem_cons_of_mem f hg))
    by_cases htag : f.tag.Get "inject" = ""
    · simp [injectFields, htag, hrest]
    · have hf : c'.services (f.tag.Get "inject") = c.services (f.tag.Get "inject") :=
        h f (List.mem_cons_self f rest) htag
      simp [injectFields, htag, Container.Get, hf, hrest]

theorem report_consField (f : Field) (o : Outcome (Option GoError × List Field)) :
    (consField f o).report = o.report := by
  cases o with
  | returned a => cases a; rfl
  | panicked p => rfl

theorem report_injectResult (t : CType) (o : Outcome (Option GoError × List Field)) :
    (injectResult t o).report = o.report := by
  cases o with
  | returned a => cases a; rfl
  | panicked p => rfl

/-- What the loop reports is the same with and without a field that has no
injection key. -/
theorem injectFields_report_untagged (c : Container) (pre : List Field) (f : Field)
    (post : List Field) (htag : f.injectTag = "") :
    (injectFields c (pre ++ f :: post)).report = (injectFields c (pre ++ post)).report := by
  induction pre with
  | nil =>
    have htag' : f.tag.Get "inject" = "" := htag
    simp [injectFields, htag', report_consField]
  | cons g pre ih =>
    by_cases hg : g.tag.Get "inject" = ""
    · simp [injectFields, hg, report_consField, ih]
    · cases hs : c.services (g.tag.Get "inject") with
      | none => simp [injectFields, hg, Container.Get, hs, Outcome.report]
      | some s =>
        by_cases hcan : g.CanSet = true
        · cases hset : Value.Set g.typ s with
          | panicked p => simp [injectFields, hg, Container.Get, hs, hcan, hset, Outcome.report]
          | returned v =>
            simp [injectFields, hg, Container.Get, hs, hcan, hset, report_consField, ih]
        · simp [injectFields, hg, Container.Get, hs, hcan, report_consField, ih]

/-- `Inject` on a pointer to a struct variable, from the loop over its fields. -/
theorem Inject_struct_result (c : Container) (t : CType) (fields : List Field)
    (hstruct : t.kind = Kind.Struct) :
    c.Inject (Target.ptr (Var.concrete t fields)) = injectResult t (injectFields c fields) := by
  rw [Inject_struct c t fields hstruct]
  cases injectFields c fields with
  | returned a => cases a; rfl
  | panicked p => rfl

theorem prependFields_consField (pre : List Field) (f : Field)
    (o : Outcome (Option GoError × List Field)) :
    prependFields pre (consField f o) = prependFields (pre ++ [f]) o := by
  cases o with
  | returned a => cases a; simp [prependFields, consField]
  | panicked p => rfl

/-- C11: whenever `Inject` returns on a pointer to a struct, with a nil error
or with a not-found error, a field `f` without `inject` tag, or with an empty
one, is in the struct as it was before the call, like every other such field;
what `Inject` reports is what it reports on the struct without `f`, and it does
not depend on what is bound to the empty key: no lookup is made for `f`, and
`f` causes no error. -/
theorem Inject_untagged_untouched (c : Container) (t : CType) (pre : List Field)
    (f : Field) (post : List Field) (err : Option GoError) (target' : Target)
    (hstruct : t.kind = Kind.Struct) (htag : f.injectTag = "")
    (hret : c.Inject (Target.ptr (Var.concrete t (pre ++ f :: post))) =
      Outcome.returned (err, target')) :
    (∃ pre' post', target' = Target.ptr (Var.concrete t (pre' ++ f :: post')) ∧
      List.Forall₂ Kept pre pre' ∧ List.Forall₂ Kept post post') ∧
    (c.Inject (Target.ptr (Var.concrete t (pre ++ f :: post)))).report =
      (c.Inject (Target.ptr (Var.concrete t (pre ++ post)))).report ∧
    ∀ s, (c.Register "" s).Inject (Target.ptr (Var.concrete t (pre ++ f :: post))) =
      c.Inject (Target.ptr (Var.concrete t (pre ++ f :: post))) := by
  refine ⟨?_, ?_, ?_⟩
  · rw [Inject_struct_result c t _ hstruct] at hret
    cases hloop : injectFields c (pre ++ f :: post) with
    | panicked p => simp [hloop, injectResult] at hret
    | returned a =>
      obtain ⟨e, fields'⟩ := a
      simp only [hloop, injectResult, Outcome.returned.injEq, Prod.mk.injEq] at hret
      have hkept := injectFields_returned_kept c _ e fields' hloop
      obtain ⟨pre', rest', hsplit, hpre, hrest⟩ := forall₂_append_split pre (f :: post) _ hkept
      rw [List.forall₂_cons_left_iff] at hrest
      obtain ⟨f', post', hf, hpost, hrest'⟩ := hrest
      have hff : f' = f := hf.2.2.2.2 (Or.inl htag)
      refine ⟨pre', post', ?_, hpre, hpost⟩
      rw [← hret.2, hsplit, hrest', hff]
  · rw [Inject_struct_result c t _ hstruct, Inject_struct_result c t _ hstruct,
      report_injectResult, report_injectResult]
    exact injectFields_report_untagged c pre f post htag
  · intro s
    rw [Inject_struct_result _ t _ hstruct, Inject_struct_result c t _ hstruct]
    congr 1
    apply injectFields_congr
    intro g _ hg
    simp [Container.Register, hg]

/-- Witness of `Inject_untagged_untouched`: the untagged field `Table` between
a field tagged `"db"` (bound) and one tagged `"logger"` (unbound). -/
theorem Inject_untagged_untouched_witness :
    userRepo.kind = Kind.Struct ∧ fieldTable.injectTag = "" ∧
    bootContainer.Inject
        (Target.ptr (Var.concrete userRepo ([fieldDB] ++ fieldTable :: [fieldLogger]))) =
      Outcome.returned (some (errInject "logger" (errNotFound "logger")),
        Target.ptr (Var.concrete userRepo
          [{ fieldDB with value := some dbHandle }, fieldTable, fieldLogger])) ∧
    ((∃ pre' post', Target.ptr (Var.concrete userRepo
          [{ fieldDB with value := some dbHandle }, fieldTable, fieldLogger]) =
        Target.ptr (Var.concrete userRepo (pre' ++ fieldTable :: post')) ∧
      List.Forall₂ Kept [fieldDB] pre' ∧ List.Forall₂ Kept [fieldLogger] post') ∧
    (bootContainer.Inject
        (Target.ptr (Var.concrete userRepo ([fieldDB] ++ fieldTable :: [fieldLogger])))).report =
      (bootContainer.Inject
        (Target.ptr (Var.concrete userRepo ([fieldDB] ++ [fieldLogger])))).report ∧
    ∀ s, (bootContainer.Register "" s).Inject
        (Target.ptr (Var.concrete userRepo ([fieldDB] ++ fieldTable :: [fieldLogger]))) =
      bootContainer.Inject
        (Target.ptr (Var.concrete userRepo ([fieldDB] ++ fieldTable :: [fieldLogger])))) :=
  ⟨by decide, by decide, by decide,
    Inject_untagged_untouched bootContainer userRepo [fieldDB] fieldTable [fieldLogger]
      (some (errInject "logger" (errNotFound "logger")))
      (Target.ptr (Var.concrete userRepo
        [{ fieldDB with value := some dbHandle }, fieldTable, fieldLogger]))
      (by decide) (by decide) (by decide)⟩

/-! ## Injection: fields that cannot be set -/

/-- C15, as amended: when the loop reaches a tagged field `f` that is not
settable (every tagged field declared before it is bound, to a non-nil service
of assignable type if that field is settable), `Inject` returns the wrapped
not-found error for the key `k` of `f` when `k` is unbound; when `k` is bound,
to whatever service, `f` is left as it was and `Inject` goes on with the field
after it: what it returns is what the rest of the loop returns. -/
theorem Inject_unsettable_field (c : Container) (t : CType) (pre : List Field)
    (f : Field) (post : List Field) (hstruct : t.kind = Kind.Struct)
    (hpre : ∀ g ∈ pre, Injectable c g) (htag : f.injectTag ≠ "")
    (hcan : f.CanSet = false) :
    ∃ pre', List.Forall₂ (Injected c) pre pre' ∧
      ((c.services f.injectTag = none ∧
          c.Inject (Target.ptr (Var.concrete t (pre ++ f :: post))) =
            Outcome.returned (some (errInject f.injectTag (errNotFound f.injectTag)),
              Target.ptr (Var.concrete t (pre' ++ f :: post)))) ∨
        (∃ s, c.services f.injectTag = some s ∧
          c.Inject (Target.ptr (Var.concrete t (pre ++ f :: post))) =
            injectResult t (prependFields (pre' ++ [f]) (injectFields c post)))) := by
  obtain ⟨pre', hrel, hrun⟩ := injectFields_prefix c pre hpre
  refine ⟨pre', hrel, ?_⟩
  have htag' : ¬ f.tag.Get "inject" = "" := htag
  cases hs : c.services f.injectTag with
  | none =>
    refine Or.inl ⟨rfl, ?_⟩
    rw [Inject_struct_result c t _ hstruct, hrun, injectFields_miss c f post htag hs]
    simp [prependFields, injectResult]
  | some s =>
    refine Or.inr ⟨s, rfl, ?_⟩
    have hs' : c.services (f.tag.Get "inject") = some s := hs
    have hstep : injectFields c (f :: post) = consField f (injectFields c post) := by
      simp [injectFields, htag', Container.Get, hs', hcan]
    rw [Inject_struct_result c t _ hstruct, hrun, hstep, prependFields_consField]

/-- Witness of `Inject_unsettable_field`: the unexported field tagged `"db"`
after a settable field tagged `"db"` and before one tagged `"cache"`. -/
theorem Inject_unsettable_field_witness :
    userRepo.kind = Kind.Struct ∧ (∀ g ∈ [fieldDB], Injectable bootContainer g) ∧
    fieldHidden.injectTag ≠ "" ∧ fieldHidden.CanSet = false ∧
    ∃ pre', List.Forall₂ (Injected bootContainer) [fieldDB] pre' ∧
      ((bootContainer.services fieldHidden.injectTag = none ∧
          bootContainer.Inject
              (Target.ptr (Var.concrete userRepo ([fieldDB] ++ fieldHidden :: [fieldCache]))) =
            Outcome.returned
              (some (errInject fieldHidden.injectTag (errNotFound fieldHidden.injectTag)),
                Target.ptr (Var.concrete userRepo (pre' ++ fieldHidden :: [fieldCache])))) ∨
        (∃ s, bootContainer.services fieldHidden.injectTag = some s ∧
          bootContainer.Inject
              (Target.ptr (Var.concrete userRepo ([fieldDB] ++ fieldHidden :: [fieldCache]))) =
            injectResult userRepo
              (prependFields (pre' ++ [fieldHidden]) (injectFields bootContainer [fieldCache])))) :=
  have h : ∀ g ∈ [fieldDB], Injectable bootContainer g := by
    intro g hg
    simp only [List.mem_singleton] at hg
    subst hg
    exact fun _ => ⟨some dbHandle, by decide, fun _ => ⟨dbHandle, rfl, by decide⟩⟩
  ⟨by decide, h, by decide, by decide,
    Inject_unsettable_field bootContainer userRepo [fieldDB] fieldHidden [fieldCache]
      (by decide) h (by decide) (by decide)⟩

/-- C15 fails as stated: the struct has the unexported field `metrics` whose
key `"metrics"` is unbound, and `Inject` fails with the wrapped not-found error
for `"logger"`, the key of the field declared before it, not for `"metrics"`. -/
theorem Inject_unsettable_field_counterexample :
    fieldMetrics.CanSet = false ∧ fieldMetrics.injectTag = "metrics" ∧
    bootContainer.services "metrics" = none ∧
    bootContainer.Inject (Target.ptr (Var.concrete userRepo [fieldLogger, fieldMetrics])) =
      Outcome.returned (some (errInject "logger" (errNotFound "logger")),
        Target.ptr (Var.concrete userRepo [fieldLogger, fieldMetrics])) ∧
    errInject "logger" (errNotFound "logger") ≠ errInject "metrics" (errNotFound "metrics") := by
  decide

end di
